import Mathlib

/-!
Shallow embedding of the Elist Telegram waitlist bot (src/src/bot.ts).

The bot keeps two persistent tables (waitlists and subscribers, accessed
through Prisma) and three in-memory registration-state structures:
`verifiedUsers` (a Set of user ids), `registrationMessages` (a Map from
user id to the pending prompt's message/chat reference) and
`pendingSubscriptions` (a Map from user id to a deferred subscription
request).  The handlers modelled here are `checkUserRegistration`, the
prompt-expiry timeout callback, the `/start` handler, the `/subscribe`
command, the dynamic `/subscribe_<name>` pattern handler and the
`/broadcast` command.

External effects (the Telegram transport) are modelled by explicit inputs:
the outcome of the silent reachability probe, whether the visible prompt
send succeeds, whether a message deletion succeeds, whether a reaction
succeeds, and a per-recipient send-success predicate for broadcasts.
Handlers return the successor state together with counters of the visible
effects they produced.  User ids are numbers in the source (stored in the
maps under their decimal string, an injective encoding), so they are
modelled directly as `Nat`; chat ids may be negative and are `Int`.
-/

namespace Elist

/-- A row of the `Waitlist` table: id, name, chatId, ownerUsername. -/
structure Waitlist where
  id : Nat
  name : String
  chatId : Int
  ownerUsername : String
deriving Repr, DecidableEq

/-- A row of the `Subscriber` table: waitlistId, userId, username. -/
structure Subscriber where
  waitlistId : Nat
  userId : Nat
  username : String
deriving Repr, DecidableEq

/-- Value stored in the `registrationMessages` map: the visible prompt's
message id and the originating chat id. -/
structure MsgRef where
  messageId : Nat
  chatId : Int
deriving Repr, DecidableEq

/-- Value stored in the `pendingSubscriptions` map: the target product
name, the user's original subscribe message id and the originating chat. -/
structure PendingSub where
  productName : String
  messageId : Nat
  chatId : Int
deriving Repr, DecidableEq

/-! ### Map and set primitives

JS `Map`/`Set` operations, modelled on association lists keyed by the
(numeric) user id. -/

/-- `Map.get` / `Map.has`: first entry with the given key. -/
def mapGet {α : Type} : List (Nat × α) → Nat → Option α
  | [], _ => none
  | p :: m, k => if p.1 == k then some p.2 else mapGet m k

/-- `Map.set`: bind `k` to `v`, discarding any previous binding. -/
def mapSet {α : Type} (m : List (Nat × α)) (k : Nat) (v : α) : List (Nat × α) :=
  (k, v) :: m.filter (fun p => p.1 ≠ k)

/-- `Map.delete`: drop any binding of `k`. -/
def mapErase {α : Type} (m : List (Nat × α)) (k : Nat) : List (Nat × α) :=
  m.filter (fun p => p.1 ≠ k)

/-- `Set.add`: idempotent insertion. -/
def setAdd (l : List Nat) (x : Nat) : List Nat :=
  if x ∈ l then l else x :: l

/-- Whole in-memory + persistent state touched by the modelled handlers. -/
structure BotState where
  waitlists : List Waitlist
  subscribers : List Subscriber
  verifiedUsers : List Nat
  registrationMessages : List (Nat × MsgRef)
  pendingSubscriptions : List (Nat × PendingSub)
deriving Repr, DecidableEq

/-- `prisma.waitlist.findFirst({ where: { name, chatId } })`. -/
def findWaitlist (l : List Waitlist) (name : String) (chatId : Int) : Option Waitlist :=
  l.find? (fun w => w.name == name && w.chatId == chatId)

/-- `prisma.subscriber.findFirst({ where: { waitlistId, userId } })`. -/
def findSubscriber (l : List Subscriber) (wid uid : Nat) : Option Subscriber :=
  l.find? (fun s => s.waitlistId == wid && s.userId == uid)

/-- Number of subscriber rows for a (waitlist, user) pair. -/
def subCount (l : List Subscriber) (wid uid : Nat) : Nat :=
  (l.filter (fun s => s.waitlistId == wid && s.userId == uid)).length

/-! ### checkUserRegistration (bot.ts lines 62-134) -/

/-- Outcome of the silent reachability probe `ctx.telegram.sendMessage(userId, ...)`:
delivered, rejected with the transport's "can't initiate conversation"
description, or any other failure. -/
inductive ProbeResult where
  | ok
  | cantInitiate
  | otherErr
deriving Repr, DecidableEq

/-- Result of `checkUserRegistration`: successor state, the boolean the
function returns, the number of silent probe messages attempted and the
number of visible prompts posted in the originating chat. -/
structure CheckResult where
  state : BotState
  canDM : Bool
  probes : Nat
  prompts : Nat
deriving Repr, DecidableEq

/-- `checkUserRegistration(ctx, productName, ownerUsername)` (bot.ts 62-134).
`probe` is the outcome of the silent test message, `promptOk` whether
`ctx.reply` of the visible prompt succeeds, `promptMsgId` the id the
transport assigns to that prompt.  The 10-second timeout it schedules is
modelled separately as `expiryCallback`. -/
def checkUserRegistration (st : BotState) (userId : Nat) (chatId : Int)
    (probe : ProbeResult) (promptOk : Bool) (promptMsgId : Nat) : CheckResult :=
  if userId ∈ st.verifiedUsers then
    ⟨st, true, 0, 0⟩
  else if (mapGet st.registrationMessages userId).isSome then
    ⟨st, false, 0, 0⟩
  else
    match probe with
    | .ok => ⟨{ st with verifiedUsers := setAdd st.verifiedUsers userId }, true, 1, 0⟩
    | .cantInitiate =>
      if promptOk then
        ⟨{ st with registrationMessages :=
             mapSet st.registrationMessages userId ⟨promptMsgId, chatId⟩ },
          false, 1, 1⟩
      else
        ⟨st, false, 1, 0⟩
    | .otherErr => ⟨st, false, 1, 0⟩

/-! ### The prompt-expiry timeout callback (bot.ts lines 109-124) -/

/-- Result of the expiry callback: successor state and how many visible
prompt messages were actually deleted. -/
structure ExpiryResult where
  state : BotState
  deletedMsgs : Nat
deriving Repr, DecidableEq

/-- The `setTimeout` callback scheduled by `checkUserRegistration`
(bot.ts 109-124).  If the registration message entry is still present it
attempts to delete the visible prompt (`deleteOk` says whether the
transport call succeeds) and clears both the `registrationMessages` and
`pendingSubscriptions` entries; a deletion failure lands in the catch
block, which clears both entries as well. -/
def expiryCallback (st : BotState) (userId : Nat) (deleteOk : Bool) : ExpiryResult :=
  match mapGet st.registrationMessages userId with
  | some _ =>
    ⟨{ st with
        registrationMessages := mapErase st.registrationMessages userId,
        pendingSubscriptions := mapErase st.pendingSubscriptions userId },
      if deleteOk then 1 else 0⟩
  | none => ⟨st, 0⟩

/-! ### The /start handler (bot.ts lines 137-229) -/

/-- Result of the `/start` handler: successor state, number of pending
prompt messages actually deleted, number of reaction attempts on the
original subscribe message, number of reactions that succeeded, number of
subscriber rows created, and number of error replies shown to the user
(the handler only logs failures, so this is 0 in every branch of the
source). -/
structure StartResult where
  state : BotState
  deletedPromptMsgs : Nat
  reactionAttempts : Nat
  reactionsApplied : Nat
  subsCreated : Nat
  errorReplies : Nat
deriving Repr, DecidableEq

/-- `bot.start` (bot.ts 137-229).  Outside a private chat it only replies.
In a private chat it marks the user verified, best-effort deletes any
pending registration prompt (`deleteOk` is the transport outcome) and
removes its entry, then completes any pending subscription: look up the
waitlist by stored name and chat, create the subscriber row iff found and
not already subscribed, attempt the thumbs-up reaction (`reactionOk`) on
the original subscribe message, and delete the pending-subscription entry
regardless (the catch block only logs). -/
def startCmd (st : BotState) (userId : Nat) (username : String) (isPrivate : Bool)
    (deleteOk reactionOk : Bool) : StartResult :=
  if !isPrivate then
    ⟨st, 0, 0, 0, 0, 0⟩
  else
    let st1 := { st with verifiedUsers := setAdd st.verifiedUsers userId }
    let pr : BotState × Nat :=
      match mapGet st1.registrationMessages userId with
      | some _ =>
        ({ st1 with registrationMessages := mapErase st1.registrationMessages userId },
          if deleteOk then (1 : Nat) else 0)
      | none => (st1, 0)
    match mapGet pr.1.pendingSubscriptions userId with
    | none => ⟨pr.1, pr.2, 0, 0, 0, 0⟩
    | some sub =>
      let cr : BotState × Nat :=
        match findWaitlist pr.1.waitlists sub.productName sub.chatId with
        | none => (pr.1, (0 : Nat))
        | some wl =>
          match findSubscriber pr.1.subscribers wl.id userId with
          | some _ => (pr.1, 0)
          | none =>
            ({ pr.1 with subscribers := pr.1.subscribers ++ [⟨wl.id, userId, username⟩] }, 1)
      ⟨{ cr.1 with pendingSubscriptions := mapErase cr.1.pendingSubscriptions userId },
        pr.2, 1, if reactionOk then 1 else 0, cr.2, 0⟩

/-! ### The /subscribe command and the dynamic /subscribe_<name> handler
(bot.ts lines 380-443 and 446-531) -/

/-- Which reply a subscribe attempt produced. -/
inductive SubscribeOutcome where
  | usage
  | notFound
  | already
  | pendingStored
  | subscribed
deriving Repr, DecidableEq

/-- Result of a subscribe handler: successor state, the reply branch taken,
probe/prompt effect counters from the gate, number of reactions applied and
number of textual fallback replies. -/
structure SubscribeResult where
  state : BotState
  outcome : SubscribeOutcome
  probes : Nat
  prompts : Nat
  reactionsApplied : Nat
  fallbackReplies : Nat
deriving Repr, DecidableEq

/-- Shared tail of both subscribe handlers, after the waitlist has been
resolved (bot.ts 397-442 and 482-530): already-subscribed check, the
registration gate for group chats (storing a pending subscription under
`storedName` when the gate returns false), subscriber creation and the
reaction-or-fallback reply. -/
def finishSubscribe (st : BotState) (wl : Waitlist) (storedName : String) (chatId : Int)
    (userId : Nat) (username : String) (isPrivate : Bool) (msgId : Nat)
    (probe : ProbeResult) (promptOk : Bool) (promptMsgId : Nat) (reactionOk : Bool) :
    SubscribeResult :=
  match findSubscriber st.subscribers wl.id userId with
  | some _ => ⟨st, .already, 0, 0, 0, 0⟩
  | none =>
    let c :=
      if isPrivate then (⟨st, true, 0, 0⟩ : CheckResult)
      else checkUserRegistration st userId chatId probe promptOk promptMsgId
    if c.canDM then
      let st2 := { c.state with subscribers := c.state.subscribers ++ [⟨wl.id, userId, username⟩] }
      ⟨st2, .subscribed, c.probes, c.prompts,
        if reactionOk then 1 else 0, if reactionOk then 0 else 1⟩
    else
      ⟨{ c.state with
           pendingSubscriptions :=
             mapSet c.state.pendingSubscriptions userId ⟨storedName, msgId, chatId⟩ },
        .pendingStored, c.probes, c.prompts, 0, 0⟩

/-- `bot.command('subscribe')` (bot.ts 380-443).  `args` is
`ctx.message.text.split(' ').slice(1)`; the product name is their
space-join.  Stores the pending subscription under that product name. -/
def subscribeCmd (st : BotState) (chatId : Int) (userId : Nat) (username : String)
    (isPrivate : Bool) (args : List String) (msgId : Nat)
    (probe : ProbeResult) (promptOk : Bool) (promptMsgId : Nat) (reactionOk : Bool) :
    SubscribeResult :=
  if args.isEmpty then ⟨st, .usage, 0, 0, 0, 0⟩
  else
    let productName := String.intercalate " " args
    match findWaitlist st.waitlists productName chatId with
    | none => ⟨st, .notFound, 0, 0, 0, 0⟩
    | some wl =>
      finishSubscribe st wl productName chatId userId username isPrivate msgId
        probe promptOk promptMsgId reactionOk

/-- `[a-zA-Z0-9_]`, the JS word-character class used in the bot-mention
regex. -/
def isWordChar (c : Char) : Bool :=
  c.isAlpha || c.isDigit || c == '_'

/-- Model of `commandName.match(/^(.+?)@[a-zA-Z0-9_]+$/)` followed by taking
group 1 (bot.ts 453-455): if the string ends in `@` + one or more word
characters with a nonempty prefix before that `@`, the suffix is stripped.
Because word characters exclude `@`, the `@` the regex splits at is the
last one in the string. -/
def stripBotMention (s : String) : String :=
  let rev := s.data.reverse
  let w := rev.takeWhile isWordChar
  match rev.drop w.length with
  | '@' :: rest => if w.isEmpty || rest.isEmpty then s else String.mk rest.reverse
  | _ => s

/-- JS `\s` on the whitespace characters relevant here (space, tab, LF, VT,
FF, CR). -/
def isWsChar (c : Char) : Bool :=
  c == ' ' || c == '\t' || c == '\n' || c == '\x0b' || c == '\x0c' || c == '\r'

/-- Worker for `name.replace(/\s+/g, '_')`: each maximal whitespace run
becomes a single underscore. -/
def collapseWsGo : Bool → List Char → List Char
  | _, [] => []
  | inWs, c :: rest =>
    if isWsChar c then
      if inWs then collapseWsGo true rest
      else '_' :: collapseWsGo true rest
    else c :: collapseWsGo false rest

/-- JS `.toLowerCase()` on the character level (ASCII letters, the only
ones the command names here use). -/
def lowerAscii (s : String) : String :=
  String.mk (s.data.map Char.toLower)

/-- `w.name.replace(/\s+/g, '_').toLowerCase()` (bot.ts 474): the sanitized
command form of a waitlist name. -/
def sanitizeName (s : String) : String :=
  lowerAscii (String.mk (collapseWsGo false s.data))

/-- `commandName.replace(/_/g, ' ')` (bot.ts 463). -/
def underscoresToSpaces (s : String) : String :=
  String.mk (s.data.map (fun c => if c == '_' then ' ' else c))

/-- Waitlist resolution of the dynamic subscribe handler (bot.ts 465-476):
first `findFirst({ name: productName, chatId })` with the underscores of
the command name turned back into spaces, then, if that misses, a scan of
all of the chat's waitlists for the first whose sanitized name equals the
command name exactly. -/
def resolveDynamic (wls : List Waitlist) (chatId : Int) (commandName : String) :
    Option Waitlist :=
  let productName := underscoresToSpaces commandName
  match wls.find? (fun w => w.name == productName && w.chatId == chatId) with
  | some w => some w
  | none =>
    (wls.filter (fun w => w.chatId == chatId)).find?
      (fun w => sanitizeName w.name == commandName)

/-- `bot.hears(/^\/subscribe_(.+)/)` (bot.ts 446-531).  `commandRaw` is the
regex capture; the bot-mention suffix is stripped, the waitlist resolved in
two phases, and the shared subscribe tail runs with the waitlist's stored
name. -/
def dynamicSubscribeCmd (st : BotState) (chatId : Int) (userId : Nat) (username : String)
    (isPrivate : Bool) (commandRaw : String) (msgId : Nat)
    (probe : ProbeResult) (promptOk : Bool) (promptMsgId : Nat) (reactionOk : Bool) :
    SubscribeResult :=
  let commandName := stripBotMention commandRaw
  match resolveDynamic st.waitlists chatId commandName with
  | none => ⟨st, .notFound, 0, 0, 0, 0⟩
  | some wl =>
    finishSubscribe st wl wl.name chatId userId username isPrivate msgId
      probe promptOk promptMsgId reactionOk

/-! ### The /broadcast command (bot.ts lines 593-655) -/

/-- Which reply branch `/broadcast` took. -/
inductive BroadcastOutcome where
  | wrongContext
  | usage
  | notOwned
  | ownerMismatch
  | sent
deriving Repr, DecidableEq

/-- Result of `/broadcast`: successor state, reply branch, the user ids a
send was attempted for (in store-returned order), the reported success
count and the recorded failed recipients. -/
structure BroadcastResult where
  state : BotState
  outcome : BroadcastOutcome
  attempts : List Nat
  sentCount : Nat
  failedUsers : List Nat
deriving Repr, DecidableEq

/-- Prisma semantics of `where: { name, ownerUsername: fromUsername }` when
`fromUsername` may be `undefined`: an undefined value drops the filter
entirely, so every owner matches. -/
def ownerMatches (fu : Option String) (w : Waitlist) : Bool :=
  match fu with
  | none => true
  | some u => w.ownerUsername == u

/-- The guard `!fromUsername || waitlist.ownerUsername !== fromUsername`
(bot.ts 622). -/
def ownerGuardFails (fu : Option String) (w : Waitlist) : Bool :=
  match fu with
  | none => true
  | some u => w.ownerUsername != u

/-- The send loop (bot.ts 634-642): one `sendMessage` attempt per
subscriber in order, counting successes and collecting failed user ids;
an individual failure never stops the loop. -/
def broadcastLoop : List Subscriber → (Nat → Bool) → Nat × List Nat
  | [], _ => (0, [])
  | s :: rest, sendOk =>
    let r := broadcastLoop rest sendOk
    if sendOk s.userId then (r.1 + 1, r.2) else (r.1, s.userId :: r.2)

/-- `bot.command('broadcast')` (bot.ts 593-655).  Rejects non-private
chats, then short argument lists, resolves the waitlist by name plus the
(possibly undefined) caller username, re-checks owner equality, and runs
the send loop over the waitlist's subscribers.  No branch writes to the
store. -/
def broadcastCmd (st : BotState) (fromUsername : Option String) (isPrivate : Bool)
    (args : List String) (sendOk : Nat → Bool) : BroadcastResult :=
  if !isPrivate then ⟨st, .wrongContext, [], 0, []⟩
  else
    match args with
    | productName :: _ :: _ =>
      match st.waitlists.find? (fun w => w.name == productName && ownerMatches fromUsername w) with
      | none => ⟨st, .notOwned, [], 0, []⟩
      | some wl =>
        if ownerGuardFails fromUsername wl then ⟨st, .ownerMismatch, [], 0, []⟩
        else
          let subs := st.subscribers.filter (fun s => s.waitlistId == wl.id)
          let r := broadcastLoop subs sendOk
          ⟨st, .sent, subs.map (fun s => s.userId), r.1, r.2⟩
    | _ => ⟨st, .usage, [], 0, []⟩

/-! ### Lemmas about the map and set primitives -/

theorem mapGet_filter_ne {α : Type} (m : List (Nat × α)) (k k' : Nat) (h : k' ≠ k) :
    mapGet (m.filter (fun p => p.1 ≠ k)) k' = mapGet m k' := by
  induction m with
  | nil => rfl
  | cons p t ih =>
    rw [List.filter_cons]
    by_cases hp : p.1 = k
    · have hd : (decide (p.1 ≠ k)) = false := by simp [hp]
      rw [hd]
      simp only [Bool.false_eq_true, if_false]
      rw [ih]
      have hk : (p.1 == k') = false := by
        rw [hp]
        exact beq_eq_false_iff_ne.mpr (fun hc => h hc.symm)
      simp [mapGet, hk]
    · have hd : (decide (p.1 ≠ k)) = true := by simp [hp]
      rw [hd]
      simp only [if_true]
      simp only [mapGet]
      rw [ih]

theorem mapGet_set_self {α : Type} (m : List (Nat × α)) (k : Nat) (v : α) :
    mapGet (mapSet m k v) k = some v := by
  simp [mapGet, mapSet]

theorem mapGet_set_ne {α : Type} (m : List (Nat × α)) (k k' : Nat) (v : α) (h : k' ≠ k) :
    mapGet (mapSet m k v) k' = mapGet m k' := by
  have hk : (k == k') = false := beq_eq_false_iff_ne.mpr (fun hc => h hc.symm)
  simp only [mapSet, mapGet, hk, Bool.false_eq_true, if_false]
  exact mapGet_filter_ne m k k' h

theorem mapGet_erase_self {α : Type} (m : List (Nat × α)) (k : Nat) :
    mapGet (mapErase m k) k = none := by
  induction m with
  | nil => rfl
  | cons p t ih =>
    by_cases hp : p.1 = k
    · simp [mapErase, List.filter_cons, hp] at ih ⊢
      exact ih
    · simp [mapErase, mapGet, List.filter_cons, hp] at ih ⊢
      exact ih

theorem mapGet_erase_ne {α : Type} (m : List (Nat × α)) (k k' : Nat) (h : k' ≠ k) :
    mapGet (mapErase m k) k' = mapGet m k' :=
  mapGet_filter_ne m k k' h

theorem isSome_mapGet_set {α : Type} (m : List (Nat × α)) (k k' : Nat) (v : α)
    (h : (mapGet m k').isSome) : (mapGet (mapSet m k v) k').isSome := by
  by_cases hk : k' = k
  · subst hk
    simp [mapGet_set_self]
  · rwa [mapGet_set_ne m k k' v hk]

theorem mem_of_mem_mapSet {α : Type} {m : List (Nat × α)} {k : Nat} {v : α}
    {p : Nat × α} (h : p ∈ mapSet m k v) : p = (k, v) ∨ p ∈ m := by
  simp only [mapSet, List.mem_cons, List.mem_filter] at h
  rcases h with h | h
  · exact Or.inl h
  · exact Or.inr h.1

theorem mem_of_mem_mapErase {α : Type} {m : List (Nat × α)} {k : Nat}
    {p : Nat × α} (h : p ∈ mapErase m k) : p ∈ m ∧ p.1 ≠ k := by
  simp only [mapErase, List.mem_filter, decide_eq_true_eq] at h
  exact h

theorem mapGet_eq_none_iff {α : Type} (m : List (Nat × α)) (k : Nat) :
    mapGet m k = none ↔ ∀ p ∈ m, p.1 ≠ k := by
  induction m with
  | nil => simp [mapGet]
  | cons p t ih =>
    by_cases hp : p.1 = k
    · simp [mapGet, hp]
    · simp [mapGet, hp, ih]

/-! ### Lemmas about subscriber rows -/

theorem subCount_append (l l' : List Subscriber) (wid uid : Nat) :
    subCount (l ++ l') wid uid = subCount l wid uid + subCount l' wid uid := by
  simp [subCount, List.filter_append]

theorem subCount_eq_zero (l : List Subscriber) (wid uid : Nat)
    (h : findSubscriber l wid uid = none) : subCount l wid uid = 0 := by
  rw [findSubscriber, List.find?_eq_none] at h
  simp only [subCount, List.length_eq_zero]
  rw [List.filter_eq_nil_iff]
  exact h

theorem subCount_single_self (uid wid : Nat) (un : String) :
    subCount [⟨wid, uid, un⟩] wid uid = 1 := by
  simp [subCount]

/-- Uniqueness of the (waitlist, user) key across a subscriber table. -/
def SubsUnique (l : List Subscriber) : Prop :=
  l.Pairwise (fun a b => ¬(a.waitlistId = b.waitlistId ∧ a.userId = b.userId))

instance (l : List Subscriber) : Decidable (SubsUnique l) := by
  unfold SubsUnique
  infer_instance

theorem subsUnique_append_single (l : List Subscriber) (x : Subscriber)
    (hu : SubsUnique l) (hx : findSubscriber l x.waitlistId x.userId = none) :
    SubsUnique (l ++ [x]) := by
  rw [SubsUnique, List.pairwise_append]
  refine ⟨hu, List.pairwise_singleton _ _, ?_⟩
  intro a ha b hb
  simp only [List.mem_singleton] at hb
  subst hb
  rw [findSubscriber, List.find?_eq_none] at hx
  have := hx a ha
  simp only [Bool.and_eq_true, beq_iff_eq] at this
  intro hcontra
  exact this ⟨hcontra.1, hcontra.2⟩

theorem subCount_le_one_of_unique (l : List Subscriber) (hu : SubsUnique l)
    (wid uid : Nat) : subCount l wid uid ≤ 1 := by
  induction l with
  | nil => simp [subCount]
  | cons a t ih =>
    rw [SubsUnique, List.pairwise_cons] at hu
    by_cases hp : a.waitlistId = wid ∧ a.userId = uid
    · have hz : subCount t wid uid = 0 := by
        simp only [subCount, List.length_eq_zero]
        rw [List.filter_eq_nil_iff]
        intro b hb
        have := hu.1 b hb
        simp only [Bool.and_eq_true, beq_iff_eq, not_and]
        intro h1 h2
        exact this ⟨hp.1.trans h1.symm, hp.2.trans h2.symm⟩
      simp only [subCount, List.filter_cons] at hz ⊢
      have hpa : (a.waitlistId == wid && a.userId == uid) = true := by
        simp [hp.1, hp.2]
      rw [hpa]
      simp only [if_true, List.length_cons]
      omega
    · have hpa : (a.waitlistId == wid && a.userId == uid) = false := by
        simp only [Bool.and_eq_true, beq_iff_eq] at hp ⊢
        simp only [Bool.and_eq_false_iff, beq_eq_false_iff_ne]
        by_cases h1 : a.waitlistId = wid
        · exact Or.inr (fun h2 => hp ⟨h1, h2⟩)
        · exact Or.inl h1
      simp only [subCount, List.filter_cons, hpa] at ih ⊢
      simp only [if_false, Bool.false_eq_true]
      exact ih hu.2

/-! ### Structure lemmas about the handlers -/

theorem checkUserRegistration_tables (st : BotState) (u : Nat) (c : Int)
    (p : ProbeResult) (po : Bool) (pm : Nat) :
    (checkUserRegistration st u c p po pm).state.waitlists = st.waitlists ∧
    (checkUserRegistration st u c p po pm).state.subscribers = st.subscribers ∧
    (checkUserRegistration st u c p po pm).state.pendingSubscriptions = st.pendingSubscriptions := by
  unfold checkUserRegistration
  by_cases h1 : u ∈ st.verifiedUsers
  · simp [h1]
  · cases hm : mapGet st.registrationMessages u with
    | some v => simp [h1, hm]
    | none => cases p <;> cases po <;> simp [h1, hm]

theorem checkUserRegistration_regMsg_mono (st : BotState) (u k : Nat) (c : Int)
    (p : ProbeResult) (po : Bool) (pm : Nat)
    (h : (mapGet st.registrationMessages k).isSome) :
    (mapGet (checkUserRegistration st u c p po pm).state.registrationMessages k).isSome := by
  unfold checkUserRegistration
  by_cases h1 : u ∈ st.verifiedUsers
  · simpa [h1]
  · cases hm : mapGet st.registrationMessages u with
    | some v => simpa [h1, hm]
    | none =>
      cases p <;> cases po <;> simp [h1, hm]
      all_goals first
        | exact h
        | exact isSome_mapGet_set _ u k _ h

theorem checkUserRegistration_false_hasPrompt (st : BotState) (u : Nat) (c : Int) (pm : Nat)
    (h : (checkUserRegistration st u c .cantInitiate true pm).canDM = false) :
    (mapGet (checkUserRegistration st u c .cantInitiate true pm).state.registrationMessages u).isSome := by
  unfold checkUserRegistration at h ⊢
  by_cases h1 : u ∈ st.verifiedUsers
  · simp [h1] at h
  · cases hm : mapGet st.registrationMessages u with
    | some v => simp [h1, hm]
    | none => simp [h1, hm, mapGet_set_self]

theorem finishSubscribe_already (st : BotState) (wl : Waitlist) (sn : String)
    (chatId : Int) (u : Nat) (un : String) (isPriv : Bool) (msgId pm : Nat)
    (probe : ProbeResult) (pOk rOk : Bool) (s : Subscriber)
    (hf : findSubscriber st.subscribers wl.id u = some s) :
    finishSubscribe st wl sn chatId u un isPriv msgId probe pOk pm rOk =
      ⟨st, .already, 0, 0, 0, 0⟩ := by
  simp [finishSubscribe, hf]

theorem finishSubscribe_subscribers (st : BotState) (wl : Waitlist) (sn : String)
    (chatId : Int) (u : Nat) (un : String) (isPriv : Bool) (msgId pm : Nat)
    (probe : ProbeResult) (pOk rOk : Bool) :
    (finishSubscribe st wl sn chatId u un isPriv msgId probe pOk pm rOk).state.subscribers =
        st.subscribers ∨
    ((finishSubscribe st wl sn chatId u un isPriv msgId probe pOk pm rOk).state.subscribers =
        st.subscribers ++ [⟨wl.id, u, un⟩] ∧
      findSubscriber st.subscribers wl.id u = none) := by
  cases hf : findSubscriber st.subscribers wl.id u with
  | some s => simp [finishSubscribe, hf]
  | none =>
    cases isPriv with
    | true => simp [finishSubscribe, hf]
    | false =>
      simp only [finishSubscribe, hf, Bool.false_eq_true, if_false]
      have hsub := (checkUserRegistration_tables st u chatId probe pOk pm).2.1
      cases hd : (checkUserRegistration st u chatId probe pOk pm).canDM with
      | true => simp [hd, hsub, hf]
      | false => simp [hd, hsub]

theorem startCmd_subscribers (st : BotState) (u : Nat) (un : String) (isPriv : Bool)
    (dOk rOk : Bool) :
    (startCmd st u un isPriv dOk rOk).state.subscribers = st.subscribers ∨
    (∃ wid, (startCmd st u un isPriv dOk rOk).state.subscribers =
        st.subscribers ++ [⟨wid, u, un⟩] ∧
      findSubscriber st.subscribers wid u = none) := by
  cases isPriv with
  | false => simp [startCmd]
  | true =>
    simp only [startCmd, Bool.not_true, Bool.false_eq_true, if_false]
    cases hm : mapGet { st with verifiedUsers := setAdd st.verifiedUsers u }.registrationMessages u with
    | some v =>
      cases hp : mapGet st.pendingSubscriptions u with
      | none => simp [hm, hp]
      | some sub =>
        cases hw : findWaitlist st.waitlists sub.productName sub.chatId with
        | none => simp [hm, hp, hw]
        | some wl =>
          cases hs : findSubscriber st.subscribers wl.id u with
          | some s => simp [hm, hp, hw, hs]
          | none =>
            right
            exact ⟨wl.id, by simp [hm, hp, hw, hs], hs⟩
    | none =>
      cases hp : mapGet st.pendingSubscriptions u with
      | none => simp [hm, hp]
      | some sub =>
        cases hw : findWaitlist st.waitlists sub.productName sub.chatId with
        | none => simp [hm, hp, hw]
        | some wl =>
          cases hs : findSubscriber st.subscribers wl.id u with
          | some s => simp [hm, hp, hw, hs]
          | none =>
            right
            exact ⟨wl.id, by simp [hm, hp, hw, hs], hs⟩

/-! ### The pending-subscription / pending-prompt linkage invariant -/

/-- Every user holding a PendingSubscription entry also has an outstanding
registration-prompt (PendingPrompt) entry. -/
def PromptInv (st : BotState) : Prop :=
  ∀ p ∈ st.pendingSubscriptions, (mapGet st.registrationMessages p.1).isSome

instance (st : BotState) : Decidable (PromptInv st) := by
  unfold PromptInv
  exact List.decidableBAll _ _

theorem expiryCallback_promptInv (st : BotState) (u : Nat) (dOk : Bool)
    (hinv : PromptInv st) : PromptInv (expiryCallback st u dOk).state := by
  unfold expiryCallback
  cases hm : mapGet st.registrationMessages u with
  | none => exact hinv
  | some v =>
    intro p hp
    have hmem := mem_of_mem_mapErase hp
    have := hinv p hmem.1
    rwa [mapGet_erase_ne st.registrationMessages u p.1 hmem.2]

theorem startCmd_promptInv (st : BotState) (u : Nat) (un : String) (isPriv : Bool)
    (dOk rOk : Bool) (hinv : PromptInv st) :
    PromptInv (startCmd st u un isPriv dOk rOk).state := by
  cases isPriv with
  | false => exact hinv
  | true =>
    simp only [startCmd, Bool.not_true, Bool.false_eq_true, if_false]
    cases hm : mapGet { st with verifiedUsers := setAdd st.verifiedUsers u }.registrationMessages u with
    | some v =>
      cases hp : mapGet st.pendingSubscriptions u with
      | none =>
        simp only [hm, hp]
        intro p hmem
        have hne : p.1 ≠ u := by
          have := (mapGet_eq_none_iff st.pendingSubscriptions u).mp hp
          exact this p hmem
        have := hinv p hmem
        rwa [mapGet_erase_ne st.registrationMessages u p.1 hne]
      | some sub =>
        simp only [hm, hp]
        cases hw : findWaitlist st.waitlists sub.productName sub.chatId with
        | none =>
          simp only [hw]
          intro p hmem
          have h2 := mem_of_mem_mapErase hmem
          have := hinv p h2.1
          rwa [mapGet_erase_ne st.registrationMessages u p.1 h2.2]
        | some wl =>
          simp only [hw]
          cases hs : findSubscriber st.subscribers wl.id u with
          | some s =>
            simp only [hs]
            intro p hmem
            have h2 := mem_of_mem_mapErase hmem
            have := hinv p h2.1
            rwa [mapGet_erase_ne st.registrationMessages u p.1 h2.2]
          | none =>
            simp only [hs]
            intro p hmem
            have h2 := mem_of_mem_mapErase hmem
            have := hinv p h2.1
            rwa [mapGet_erase_ne st.registrationMessages u p.1 h2.2]
    | none =>
      cases hp : mapGet st.pendingSubscriptions u with
      | none =>
        simp only [hm, hp]
        exact hinv
      | some sub =>
        simp only [hm, hp]
        cases hw : findWaitlist st.waitlists sub.productName sub.chatId with
        | none =>
          simp only [hw]
          intro p hmem
          exact hinv p (mem_of_mem_mapErase hmem).1
        | some wl =>
          simp only [hw]
          cases hs : findSubscriber st.subscribers wl.id u with
          | some s =>
            simp only [hs]
            intro p hmem
            exact hinv p (mem_of_mem_mapErase hmem).1
          | none =>
            simp only [hs]
            intro p hmem
            exact hinv p (mem_of_mem_mapErase hmem).1

theorem finishSubscribe_promptInv (st : BotState) (wl : Waitlist) (sn : String)
    (chatId : Int) (u : Nat) (un : String) (isPriv : Bool) (msgId pm : Nat) (rOk : Bool)
    (hinv : PromptInv st) :
    PromptInv (finishSubscribe st wl sn chatId u un isPriv msgId .cantInitiate true pm rOk).state := by
  cases hf : findSubscriber st.subscribers wl.id u with
  | some s =>
    simp only [finishSubscribe, hf]
    exact hinv
  | none =>
    cases isPriv with
    | true =>
      simp only [finishSubscribe, hf, if_true]
      exact hinv
    | false =>
      simp only [finishSubscribe, hf, Bool.false_eq_true, if_false]
      have hps := (checkUserRegistration_tables st u chatId .cantInitiate true pm).2.2
      cases hd : (checkUserRegistration st u chatId .cantInitiate true pm).canDM with
      | true =>
        simp only [hd, if_true]
        intro p hmem
        rw [hps] at hmem
        exact checkUserRegistration_regMsg_mono st u p.1 chatId .cantInitiate true pm (hinv p hmem)
      | false =>
        simp only [hd, Bool.false_eq_true, if_false]
        intro p hmem
        rcases mem_of_mem_mapSet hmem with h | h
        · rw [h]
          exact checkUserRegistration_false_hasPrompt st u chatId pm hd
        · rw [hps] at h
          exact checkUserRegistration_regMsg_mono st u p.1 chatId .cantInitiate true pm (hinv p h)

/-! ### Lemmas about the broadcast engine -/

theorem length_filter_not_add (l : List Subscriber) (f : Subscriber → Bool) :
    (l.filter f).length + (l.filter (fun x => !f x)).length = l.length := by
  induction l with
  | nil => rfl
  | cons a t ih => cases hf : f a <;> simp [List.filter_cons, hf, ← ih] <;> omega

theorem broadcastLoop_eq (subs : List Subscriber) (f : Nat → Bool) :
    broadcastLoop subs f =
      ((subs.filter (fun s => f s.userId)).length,
        (subs.filter (fun s => !f s.userId)).map (fun s => s.userId)) := by
  induction subs with
  | nil => rfl
  | cons s t ih =>
    simp only [broadcastLoop, ih, List.filter_cons]
    cases hf : f s.userId <;> simp [hf]

theorem broadcastCmd_state (st : BotState) (fu : Option String) (isPriv : Bool)
    (args : List String) (f : Nat → Bool) :
    (broadcastCmd st fu isPriv args f).state = st := by
  unfold broadcastCmd
  split
  · rfl
  · split
    · split
      · rfl
      · split
        · rfl
        · rfl
    · rfl

/-- Claim C7: a broadcast reaching the send loop attempts exactly one send
per subscriber of the waitlist in store-returned order, never aborts the
loop on an individual failure, and reports exactly N − K successes when K
of the N individual sends fail. -/
theorem c7_broadcast_counts (st : BotState) (u : String) (p m : String) (rest : List String)
    (f : Nat → Bool) (wl : Waitlist)
    (hfind : st.waitlists.find? (fun w => w.name == p && ownerMatches (some u) w) = some wl) :
    let r := broadcastCmd st (some u) true (p :: m :: rest) f
    let subs := st.subscribers.filter (fun s => s.waitlistId == wl.id)
    r.attempts = subs.map (fun s => s.userId) ∧
    r.sentCount = subs.length - (subs.filter (fun s => !f s.userId)).length ∧
    r.sentCount + r.failedUsers.length = subs.length := by
  intro r subs
  have hpred := List.find?_some hfind
  have howner : wl.ownerUsername = u := by
    simp only [Bool.and_eq_true, ownerMatches, beq_iff_eq] at hpred
    exact hpred.2
  have hguard : ownerGuardFails (some u) wl = false := by
    simp [ownerGuardFails, howner]
  have hr : r = ⟨st, .sent, subs.map (fun s => s.userId),
      (subs.filter (fun s => f s.userId)).length,
      (subs.filter (fun s => !f s.userId)).map (fun s => s.userId)⟩ := by
    simp only [r, subs, broadcastCmd, Bool.not_true, Bool.false_eq_true, if_false, hfind,
      hguard, broadcastLoop_eq]
  rw [hr]
  refine ⟨rfl, ?_, ?_⟩
  · have := length_filter_not_add subs (fun s => f s.userId)
    simp only
    omega
  · have := length_filter_not_add subs (fun s => f s.userId)
    simp only [List.length_map]
    omega

/-- Concrete instance of C7: three subscribers, one failing send, success
count 2 = 3 − 1, loop not aborted. -/
theorem c7_broadcast_counts_witness :
    let st : BotState :=
      ⟨[⟨1, "Launch", 5, "alice"⟩],
        [⟨1, 7, "b"⟩, ⟨1, 8, "c"⟩, ⟨1, 9, "d"⟩, ⟨2, 10, "e"⟩], [], [], []⟩
    let r := broadcastCmd st (some "alice") true ["Launch", "go"] (fun n => n != 8)
    let subs := st.subscribers.filter (fun s => s.waitlistId == (1 : Nat))
    r.attempts = subs.map (fun s => s.userId) ∧
    r.sentCount = subs.length - (subs.filter (fun s => !(s.userId != 8))).length ∧
    r.sentCount + r.failedUsers.length = subs.length := by
  intro st r subs
  exact c7_broadcast_counts st "alice" "Launch" "go" [] (fun n => n != 8)
    ⟨1, "Launch", 5, "alice"⟩ (by decide)

/-- Claim C8: broadcast sends only from a private chat by the exact owner;
group-chat invocations and invocations naming a waitlist the caller does
not own attempt zero sends and mutate nothing (the handler never writes to
the store in any branch). -/
theorem c8_broadcast_guard (st : BotState) (fu : Option String) (isPriv : Bool)
    (args : List String) (f : Nat → Bool) (u p : String) (rest : List String) :
    (broadcastCmd st fu isPriv args f).state = st ∧
    ((broadcastCmd st fu false args f).attempts = [] ∧
      (broadcastCmd st fu false args f).sentCount = 0) ∧
    (args = p :: rest → (∀ w ∈ st.waitlists, ¬(w.name = p ∧ w.ownerUsername = u)) →
      (broadcastCmd st (some u) isPriv args f).attempts = [] ∧
      (broadcastCmd st (some u) isPriv args f).sentCount = 0) ∧
    ((broadcastCmd st fu isPriv args f).attempts ≠ [] →
      isPriv = true ∧ ∃ v wl, fu = some v ∧ wl ∈ st.waitlists ∧ wl.ownerUsername = v) := by
  refine ⟨broadcastCmd_state st fu isPriv args f, by simp [broadcastCmd], ?_, ?_⟩
  · rintro rfl hno
    cases isPriv with
    | false => simp [broadcastCmd]
    | true =>
      cases rest with
      | nil => simp [broadcastCmd]
      | cons m rest2 =>
        have hfind : st.waitlists.find? (fun w => w.name == p && ownerMatches (some u) w) = none := by
          rw [List.find?_eq_none]
          intro w hw
          have := hno w hw
          simp only [Bool.and_eq_true, beq_iff_eq, ownerMatches, not_and]
          intro h1 h2
          exact this ⟨h1, h2⟩
        simp [broadcastCmd, hfind]
  · intro hne
    cases isPriv with
    | false => simp [broadcastCmd] at hne
    | true =>
      refine ⟨rfl, ?_⟩
      rcases args with _ | ⟨q, _ | ⟨m, rest2⟩⟩
      · simp [broadcastCmd] at hne
      · simp [broadcastCmd] at hne
      · cases hfind : st.waitlists.find? (fun w => w.name == q && ownerMatches fu w) with
        | none => simp [broadcastCmd, hfind] at hne
        | some wl =>
          cases hguard : ownerGuardFails fu wl with
          | true => simp [broadcastCmd, hfind, hguard] at hne
          | false =>
            cases fu with
            | none => simp [ownerGuardFails] at hguard
            | some v =>
              refine ⟨v, wl, rfl, List.mem_of_find?_eq_some hfind, ?_⟩
              simpa [ownerGuardFails] using hguard

/-- Concrete instance of C8: a group-chat invocation and a non-owner
invocation each send nothing and leave the state intact. -/
theorem c8_broadcast_guard_witness :
    let st : BotState := ⟨[⟨1, "Launch", 5, "alice"⟩], [⟨1, 7, "b"⟩], [], [], []⟩
    (broadcastCmd st (some "alice") false ["Launch", "go"] (fun _ => true)).state = st ∧
    (broadcastCmd st (some "mallory") true ["Launch", "go"] (fun _ => true)).attempts = [] ∧
    (broadcastCmd st (some "mallory") true ["Launch", "go"] (fun _ => true)).sentCount = 0 := by
  intro st
  have h := c8_broadcast_guard st (some "alice") true ["Launch", "go"] (fun _ => true)
    "mallory" "Launch" ["go"]
  exact ⟨(c8_broadcast_guard st (some "alice") false ["Launch", "go"] (fun _ => true)
      "mallory" "Launch" ["go"]).1,
    (h.2.2.1 rfl (by decide)).1, (h.2.2.1 rfl (by decide)).2⟩

/-- Claim C10: when the caller has no username, every `/broadcast`
invocation attempts zero sends and mutates nothing: the Prisma lookup drops
the undefined owner filter, but the `!fromUsername` guard rejects before
the send loop. -/
theorem c10_broadcast_no_username (st : BotState) (isPriv : Bool) (args : List String)
    (f : Nat → Bool) :
    (broadcastCmd st none isPriv args f).attempts = [] ∧
    (broadcastCmd st none isPriv args f).sentCount = 0 ∧
    (broadcastCmd st none isPriv args f).state = st := by
  cases isPriv with
  | false => simp [broadcastCmd]
  | true =>
    rcases args with _ | ⟨q, _ | ⟨m, rest⟩⟩
    · simp [broadcastCmd]
    · simp [broadcastCmd]
    · cases hfind : st.waitlists.find? (fun w => w.name == q && ownerMatches none w) with
      | none => simp [broadcastCmd, hfind]
      | some wl => simp [broadcastCmd, hfind, ownerGuardFails]

/-! ### Concrete material for witnesses and counterexamples -/

/-- A waitlist "Launch" in chat 5 owned by alice. -/
def wlLaunch : Waitlist := ⟨1, "Launch", 5, "alice"⟩

/-- A fresh state holding only `wlLaunch`. -/
def stOne : BotState := ⟨[wlLaunch], [], [], [], []⟩

/-! ### Claims about the registration gate -/

/-- Claim C9: `checkUserRegistration` short-circuits: a user already in
VerifiedUsers yields true with no transport call at all, and an unverified
user who already has a pending registration prompt yields false without a
probe and without sending anything. -/
theorem c9_gate_short_circuit (st : BotState) (u : Nat) (chat : Int)
    (probe : ProbeResult) (promptOk : Bool) (pm : Nat) :
    (u ∈ st.verifiedUsers →
      checkUserRegistration st u chat probe promptOk pm = ⟨st, true, 0, 0⟩) ∧
    (u ∉ st.verifiedUsers → (mapGet st.registrationMessages u).isSome →
      checkUserRegistration st u chat probe promptOk pm = ⟨st, false, 0, 0⟩) := by
  constructor
  · intro h
    simp [checkUserRegistration, h]
  · intro h1 h2
    simp [checkUserRegistration, h1, h2]

/-- Concrete instance of C9: a verified user and a user with an
outstanding prompt, both with zero transport effects. -/
theorem c9_gate_short_circuit_witness :
    checkUserRegistration ⟨[], [], [7], [], []⟩ 7 5 .otherErr true 0 =
      ⟨⟨[], [], [7], [], []⟩, true, 0, 0⟩ ∧
    checkUserRegistration ⟨[], [], [], [(7, ⟨9, 5⟩)], []⟩ 7 5 .otherErr true 0 =
      ⟨⟨[], [], [], [(7, ⟨9, 5⟩)], []⟩, false, 0, 0⟩ :=
  ⟨(c9_gate_short_circuit ⟨[], [], [7], [], []⟩ 7 5 .otherErr true 0).1 (by decide),
    (c9_gate_short_circuit ⟨[], [], [], [(7, ⟨9, 5⟩)], []⟩ 7 5 .otherErr true 0).2
      (by decide) (by decide)⟩

/-- Claim C2 counterexample: from a state satisfying the linkage invariant,
a group-chat subscribe whose reachability probe fails with an error other
than the cannot-initiate error stores a PendingSubscription while no
PendingPrompt for that user exists, so the invariant is not preserved by
the subscribe handler. -/
theorem c2_counterexample :
    PromptInv stOne ∧
    ¬ PromptInv (subscribeCmd stOne 5 7 "bob" false ["Launch"] 100 .otherErr true 0 true).state := by
  decide

/-- Claim C2 amended: the start-conversation handler and the expiry
callback always preserve the invariant that a PendingSubscription exists
only while a PendingPrompt for the same user is outstanding (they remove
the two together); the subscribe handlers preserve it when the gate's
false return comes from the cannot-initiate probe error with a successful
prompt send — but not for other probe failures, as the counterexample
shows. -/
theorem c2_amended_promptInv (st : BotState) (chatId : Int) (u : Nat) (un : String)
    (isPriv : Bool) (args : List String) (cmdRaw : String) (msgId pm : Nat)
    (rOk dOk : Bool) (hinv : PromptInv st) :
    PromptInv (subscribeCmd st chatId u un isPriv args msgId .cantInitiate true pm rOk).state ∧
    PromptInv (dynamicSubscribeCmd st chatId u un isPriv cmdRaw msgId .cantInitiate true pm rOk).state ∧
    PromptInv (startCmd st u un isPriv dOk rOk).state ∧
    PromptInv (expiryCallback st u dOk).state := by
  refine ⟨?_, ?_, startCmd_promptInv st u un isPriv dOk rOk hinv,
    expiryCallback_promptInv st u dOk hinv⟩
  · unfold subscribeCmd
    split
    · exact hinv
    · cases hw : findWaitlist st.waitlists (String.intercalate " " args) chatId with
      | none =>
        simp only [hw]
        exact hinv
      | some wl =>
        simp only [hw]
        exact finishSubscribe_promptInv st wl (String.intercalate " " args) chatId u un
          isPriv msgId pm rOk hinv
  · unfold dynamicSubscribeCmd
    cases hw : resolveDynamic st.waitlists chatId (stripBotMention cmdRaw) with
    | none =>
      simp only [hw]
      exact hinv
    | some wl =>
      simp only [hw]
      exact finishSubscribe_promptInv st wl wl.name chatId u un isPriv msgId pm rOk hinv

/-- Concrete instance of the amended C2: the prompt path of the subscribe
handler keeps the invariant. -/
theorem c2_amended_promptInv_witness :
    PromptInv (subscribeCmd stOne 5 7 "bob" false ["Launch"] 100 .cantInitiate true 55 true).state :=
  (c2_amended_promptInv stOne 5 7 "bob" false ["Launch"] "x" 100 55 true true (by decide)).1

/-! ### Claims about the dynamic subscribe resolution -/

/-- Claim C5 counterexample: "LAUNCH" is a case variant of "launch", the
sanitized name of the waitlist "Launch", yet the dynamic command resolution
finds no waitlist for it: phase one misses because "LAUNCH" is not the
stored name, phase two misses because the comparison against the sanitized
(lowercased) form is case-sensitive in the command name. -/
theorem c5_counterexample :
    sanitizeName "Launch" = "launch" ∧
    lowerAscii "LAUNCH" = sanitizeName "Launch" ∧
    resolveDynamic [wlLaunch] 5 "LAUNCH" = none := by
  decide

/-- Claim C5 amended: resolution is two-phase — an exact stored-name match
(after turning underscores back into spaces) wins, otherwise the first
waitlist of the chat in store-returned order whose sanitized name equals
the command name is taken; and for every waitlist in the chat, the command
equal to its sanitized name itself (not an arbitrary case variant of it)
resolves to some waitlist. -/
theorem c5_amended_resolution (wls : List Waitlist) (chatId : Int) (c : String)
    (wl : Waitlist) (hmem : wl ∈ wls) (hchat : wl.chatId = chatId)
    (hc : c = sanitizeName wl.name) :
    (∀ v, wls.find? (fun w => w.name == underscoresToSpaces c && w.chatId == chatId) = some v →
      resolveDynamic wls chatId c = some v) ∧
    (wls.find? (fun w => w.name == underscoresToSpaces c && w.chatId == chatId) = none →
      resolveDynamic wls chatId c =
        (wls.filter (fun w => w.chatId == chatId)).find?
          (fun w => sanitizeName w.name == c)) ∧
    (resolveDynamic wls chatId c).isSome := by
  refine ⟨?_, ?_, ?_⟩
  · intro v hv
    simp [resolveDynamic, hv]
  · intro hv
    simp [resolveDynamic, hv]
  · cases hf : wls.find? (fun w => w.name == underscoresToSpaces c && w.chatId == chatId) with
    | some v => simp [resolveDynamic, hf]
    | none =>
      simp only [resolveDynamic, hf]
      rw [List.find?_isSome]
      exact ⟨wl, by simp [List.mem_filter, hmem, hchat], by simp [hc]⟩

/-- Concrete instance of the amended C5: the exactly-sanitized command name
resolves. -/
theorem c5_amended_resolution_witness :
    (resolveDynamic [wlLaunch] 5 "launch").isSome :=
  (c5_amended_resolution [wlLaunch] 5 "launch" wlLaunch (by decide) rfl (by decide)).2.2

/-! ### Claims about subscriber uniqueness and the expiry path -/

theorem subscribeCmd_subscribers (st : BotState) (chatId : Int) (u : Nat) (un : String)
    (isPriv : Bool) (args : List String) (msgId pm : Nat)
    (probe : ProbeResult) (pOk rOk : Bool) :
    (subscribeCmd st chatId u un isPriv args msgId probe pOk pm rOk).state.subscribers =
        st.subscribers ∨
    (∃ wid, (subscribeCmd st chatId u un isPriv args msgId probe pOk pm rOk).state.subscribers =
        st.subscribers ++ [⟨wid, u, un⟩] ∧
      findSubscriber st.subscribers wid u = none) := by
  unfold subscribeCmd
  split
  · exact Or.inl rfl
  · cases hw : findWaitlist st.waitlists (String.intercalate " " args) chatId with
    | none =>
      simp only [hw]
      exact Or.inl trivial
    | some wl =>
      simp only [hw]
      rcases finishSubscribe_subscribers st wl (String.intercalate " " args) chatId u un
          isPriv msgId pm probe pOk rOk with h | ⟨h1, h2⟩
      · exact Or.inl h
      · exact Or.inr ⟨wl.id, h1, h2⟩

theorem dynamicSubscribeCmd_subscribers (st : BotState) (chatId : Int) (u : Nat) (un : String)
    (isPriv : Bool) (cmdRaw : String) (msgId pm : Nat)
    (probe : ProbeResult) (pOk rOk : Bool) :
    (dynamicSubscribeCmd st chatId u un isPriv cmdRaw msgId probe pOk pm rOk).state.subscribers =
        st.subscribers ∨
    (∃ wid, (dynamicSubscribeCmd st chatId u un isPriv cmdRaw msgId probe pOk pm rOk).state.subscribers =
        st.subscribers ++ [⟨wid, u, un⟩] ∧
      findSubscriber st.subscribers wid u = none) := by
  unfold dynamicSubscribeCmd
  cases hw : resolveDynamic st.waitlists chatId (stripBotMention cmdRaw) with
  | none =>
    simp only [hw]
    exact Or.inl trivial
  | some wl =>
    simp only [hw]
    rcases finishSubscribe_subscribers st wl wl.name chatId u un isPriv msgId pm
        probe pOk rOk with h | ⟨h1, h2⟩
    · exact Or.inl h
    · exact Or.inr ⟨wl.id, h1, h2⟩

theorem subsUnique_of_step {l l' : List Subscriber} {u : Nat} {un : String}
    (hu : SubsUnique l)
    (h : l' = l ∨ ∃ wid, l' = l ++ [⟨wid, u, un⟩] ∧ findSubscriber l wid u = none) :
    SubsUnique l' := by
  rcases h with rfl | ⟨wid, rfl, hn⟩
  · exact hu
  · exact subsUnique_append_single l ⟨wid, u, un⟩ hu hn

/-- Claim C3: the (waitlist, user) pair stays unique across the subscribe
handler, the dynamic subscribe handler and the deferred completion in the
start handler (so at most one subscriber row per pair exists after any of
them), and a second subscribe by an existing subscriber is a no-op that
answers with the already-subscribed reply and leaves the subscriber table
unchanged. -/
theorem c3_subscriber_uniqueness (st : BotState) (chatId : Int) (u : Nat) (un : String)
    (isPriv : Bool) (args : List String) (cmdRaw : String) (msgId pm : Nat)
    (probe : ProbeResult) (pOk rOk dOk : Bool)
    (hu : SubsUnique st.subscribers) :
    SubsUnique (subscribeCmd st chatId u un isPriv args msgId probe pOk pm rOk).state.subscribers ∧
    (∀ wid uid,
      subCount (subscribeCmd st chatId u un isPriv args msgId probe pOk pm rOk).state.subscribers
        wid uid ≤ 1) ∧
    SubsUnique (dynamicSubscribeCmd st chatId u un isPriv cmdRaw msgId probe pOk pm rOk).state.subscribers ∧
    SubsUnique (startCmd st u un isPriv dOk rOk).state.subscribers ∧
    (∀ wl s, args ≠ [] →
      findWaitlist st.waitlists (String.intercalate " " args) chatId = some wl →
      findSubscriber st.subscribers wl.id u = some s →
      (subscribeCmd st chatId u un isPriv args msgId probe pOk pm rOk).outcome = .already ∧
      (subscribeCmd st chatId u un isPriv args msgId probe pOk pm rOk).state.subscribers =
        st.subscribers) := by
  have h1 := subsUnique_of_step hu
    (subscribeCmd_subscribers st chatId u un isPriv args msgId pm probe pOk rOk)
  refine ⟨h1, fun wid uid => subCount_le_one_of_unique _ h1 wid uid,
    subsUnique_of_step hu
      (dynamicSubscribeCmd_subscribers st chatId u un isPriv cmdRaw msgId pm probe pOk rOk),
    ?_, ?_⟩
  · rcases startCmd_subscribers st u un isPriv dOk rOk with h | ⟨wid, h2, h3⟩
    · rw [h]
      exact hu
    · rw [h2]
      exact subsUnique_append_single st.subscribers ⟨wid, u, un⟩ hu h3
  · intro wl s hargs hwl hs
    have hne : args.isEmpty = false := by
      cases args with
      | nil => exact absurd rfl hargs
      | cons a t => rfl
    have := finishSubscribe_already st wl (String.intercalate " " args) chatId u un
      isPriv msgId pm probe pOk rOk s hs
    simp [subscribeCmd, hne, hwl, this]

/-- Concrete instance of C3: a state with one subscriber row stays unique,
and resubscribing is an already-subscribed no-op. -/
theorem c3_subscriber_uniqueness_witness :
    let st : BotState := ⟨[wlLaunch], [⟨1, 7, "bob"⟩], [], [], []⟩
    (subscribeCmd st 5 7 "bob" true ["Launch"] 100 .ok true 0 true).outcome =
      SubscribeOutcome.already ∧
    (subscribeCmd st 5 7 "bob" true ["Launch"] 100 .ok true 0 true).state.subscribers =
      st.subscribers ∧
    SubsUnique (startCmd st 7 "bob" true true true).state.subscribers := by
  intro st
  have h := c3_subscriber_uniqueness st 5 7 "bob" true ["Launch"] "launch" 100 0
    .ok true true true (by decide)
  have h2 := h.2.2.2.2 wlLaunch ⟨1, 7, "bob"⟩ (by decide) (by decide) (by decide)
  exact ⟨h2.1, h2.2, h.2.2.2.1⟩

/-- Claim C4: when the expiry callback fires while the prompt entry for the
user still exists, it deletes the visible prompt message (when the
transport allows), removes the PendingPrompt entry and discards the
PendingSubscription entry — also when the message deletion fails — and a
start-conversation after the expiry creates no subscriber row from that
attempt. -/
theorem c4_expiry_discards (st : BotState) (u : Nat) (un : String)
    (dOk dOk2 rOk : Bool) (mr : MsgRef)
    (hm : mapGet st.registrationMessages u = some mr) :
    let e := expiryCallback st u dOk
    mapGet e.state.registrationMessages u = none ∧
    mapGet e.state.pendingSubscriptions u = none ∧
    e.state.subscribers = st.subscribers ∧
    e.deletedMsgs = (if dOk then 1 else 0) ∧
    (startCmd e.state u un true dOk2 rOk).state.subscribers = st.subscribers := by
  intro e
  have he : e = ⟨{ st with
      registrationMessages := mapErase st.registrationMessages u,
      pendingSubscriptions := mapErase st.pendingSubscriptions u },
    if dOk then 1 else 0⟩ := by
    simp only [e, expiryCallback, hm]
  rw [he]
  refine ⟨mapGet_erase_self _ u, mapGet_erase_self _ u, rfl, rfl, ?_⟩
  have h1 : mapGet (mapErase st.registrationMessages u) u = none := mapGet_erase_self _ u
  have h2 : mapGet (mapErase st.pendingSubscriptions u) u = none := mapGet_erase_self _ u
  simp [startCmd, h1, h2]

/-- Concrete instance of C4: an expired prompt with a pending subscription,
deletion failing, still clears both entries and never subscribes. -/
theorem c4_expiry_discards_witness :
    let st : BotState := ⟨[wlLaunch], [], [], [(7, ⟨55, 5⟩)], [(7, ⟨"Launch", 100, 5⟩)]⟩
    mapGet (expiryCallback st 7 false).state.registrationMessages 7 = none ∧
    mapGet (expiryCallback st 7 false).state.pendingSubscriptions 7 = none ∧
    (expiryCallback st 7 false).state.subscribers = st.subscribers ∧
    (expiryCallback st 7 false).deletedMsgs = (if false then 1 else 0) ∧
    (startCmd (expiryCallback st 7 false).state 7 "bob" true true true).state.subscribers =
      st.subscribers := by
  intro st
  exact c4_expiry_discards st 7 "bob" false true true ⟨55, 5⟩ (by decide)

/-! ### Claims about registration completion and the gated subscribe flow -/

theorem startCmd_private_pending (st : BotState) (u : Nat) (un : String) (dOk rOk : Bool)
    (p : PendingSub) (hp : mapGet st.pendingSubscriptions u = some p) :
    (startCmd st u un true dOk rOk).reactionAttempts = 1 ∧
    mapGet (startCmd st u un true dOk rOk).state.pendingSubscriptions u = none ∧
    (startCmd st u un true dOk rOk).errorReplies = 0 ∧
    ((startCmd st u un true dOk rOk).state.subscribers,
        (startCmd st u un true dOk rOk).subsCreated) =
      (match findWaitlist st.waitlists p.productName p.chatId with
       | none => (st.subscribers, 0)
       | some wl =>
         match findSubscriber st.subscribers wl.id u with
         | some _ => (st.subscribers, 0)
         | none => (st.subscribers ++ [⟨wl.id, u, un⟩], 1)) := by
  cases hm : mapGet st.registrationMessages u with
  | some v =>
    cases hw : findWaitlist st.waitlists p.productName p.chatId with
    | none => simp [startCmd, hm, hp, hw, mapGet_erase_self]
    | some wl =>
      cases hs : findSubscriber st.subscribers wl.id u with
      | some ex => simp [startCmd, hm, hp, hw, hs, mapGet_erase_self]
      | none => simp [startCmd, hm, hp, hw, hs, mapGet_erase_self]
  | none =>
    cases hw : findWaitlist st.waitlists p.productName p.chatId with
    | none => simp [startCmd, hm, hp, hw, mapGet_erase_self]
    | some wl =>
      cases hs : findSubscriber st.subscribers wl.id u with
      | some ex => simp [startCmd, hm, hp, hw, hs, mapGet_erase_self]
      | none => simp [startCmd, hm, hp, hw, hs, mapGet_erase_self]

/-- Claim C6: when the user starts a direct conversation with a
PendingSubscription on file, the handler looks the referenced waitlist up
in the stored originating chat scope, creates the subscription iff the
waitlist is found and the user is not already a subscriber, attempts the
acknowledgement reaction on the original subscribe message regardless of
the subscription outcome, removes the PendingSubscription entry, and
surfaces no error reply even when the deferred subscription or the
reaction fails. -/
theorem c6_complete_registration (st : BotState) (u : Nat) (un : String) (dOk rOk : Bool)
    (p : PendingSub) (hp : mapGet st.pendingSubscriptions u = some p) :
    let s := startCmd st u un true dOk rOk
    (∀ wl, findWaitlist st.waitlists p.productName p.chatId = some wl →
      findSubscriber st.subscribers wl.id u = none →
      s.state.subscribers = st.subscribers ++ [⟨wl.id, u, un⟩] ∧ s.subsCreated = 1) ∧
    (findWaitlist st.waitlists p.productName p.chatId = none →
      s.state.subscribers = st.subscribers ∧ s.subsCreated = 0) ∧
    (∀ wl ex, findWaitlist st.waitlists p.productName p.chatId = some wl →
      findSubscriber st.subscribers wl.id u = some ex →
      s.state.subscribers = st.subscribers ∧ s.subsCreated = 0) ∧
    s.reactionAttempts = 1 ∧
    mapGet s.state.pendingSubscriptions u = none ∧
    s.errorReplies = 0 := by
  intro s
  obtain ⟨h1, h2, h3, h5⟩ := startCmd_private_pending st u un dOk rOk p hp
  refine ⟨?_, ?_, ?_, h1, h2, h3⟩
  · intro wl hw hs
    simp only [hw, hs, Prod.mk.injEq] at h5
    exact h5
  · intro hw
    simp only [hw, Prod.mk.injEq] at h5
    exact h5
  · intro wl ex hw hs
    simp only [hw, hs, Prod.mk.injEq] at h5
    exact h5

/-- Concrete instance of C6: a pending subscription completed on `/start`
with the reaction failing, still with no error reply and the entry
removed. -/
theorem c6_complete_registration_witness :
    let st : BotState := ⟨[wlLaunch], [], [], [(7, ⟨55, 5⟩)], [(7, ⟨"Launch", 100, 5⟩)]⟩
    (startCmd st 7 "bob" true true false).state.subscribers =
      st.subscribers ++ [⟨1, 7, "bob"⟩] ∧
    (startCmd st 7 "bob" true true false).subsCreated = 1 ∧
    (startCmd st 7 "bob" true true false).reactionAttempts = 1 ∧
    mapGet (startCmd st 7 "bob" true true false).state.pendingSubscriptions 7 = none ∧
    (startCmd st 7 "bob" true true false).errorReplies = 0 := by
  intro st
  have h := c6_complete_registration st 7 "bob" true false ⟨"Launch", 100, 5⟩ (by decide)
  have h1 := h.1 wlLaunch (by decide) (by decide)
  exact ⟨h1.1, h1.2, h.2.2.2.1, h.2.2.2.2.1, h.2.2.2.2.2⟩

/-- Claim C1: for an unverified user, a group-chat subscribe on an existing
waitlist whose probe fails with the cannot-initiate error creates no
subscriber row, posts exactly one visible prompt and records a
PendingSubscription; a subsequent `/start` in a direct chat (before any
expiry) creates exactly one subscriber row for that waitlist and user and
removes the prompt message and its entry. -/
theorem c1_gated_subscribe_flow (st : BotState) (chatId : Int) (u : Nat) (un un2 : String)
    (args : List String) (wl : Waitlist) (msgId pm : Nat) (rOk rOk2 : Bool)
    (hargs : args ≠ [])
    (hwl : findWaitlist st.waitlists (String.intercalate " " args) chatId = some wl)
    (hnosub : findSubscriber st.subscribers wl.id u = none)
    (hunver : u ∉ st.verifiedUsers)
    (hnoprompt : mapGet st.registrationMessages u = none) :
    let r := subscribeCmd st chatId u un false args msgId .cantInitiate true pm rOk
    let s := startCmd r.state u un2 true true rOk2
    r.outcome = .pendingStored ∧
    r.state.subscribers = st.subscribers ∧
    r.prompts = 1 ∧
    mapGet r.state.pendingSubscriptions u =
      some ⟨String.intercalate " " args, msgId, chatId⟩ ∧
    subCount s.state.subscribers wl.id u = 1 ∧
    mapGet s.state.registrationMessages u = none ∧
    s.deletedPromptMsgs = 1 := by
  intro r s
  have hne : args.isEmpty = false := by
    cases args with
    | nil => exact absurd rfl hargs
    | cons a t => rfl
  have hc : checkUserRegistration st u chatId .cantInitiate true pm =
      ⟨{ st with registrationMessages := mapSet st.registrationMessages u ⟨pm, chatId⟩ },
        false, 1, 1⟩ := by
    simp [checkUserRegistration, hunver, hnoprompt]
  have hr : r = ⟨{ st with
      registrationMessages := mapSet st.registrationMessages u ⟨pm, chatId⟩,
      pendingSubscriptions := mapSet st.pendingSubscriptions u
        ⟨String.intercalate " " args, msgId, chatId⟩ },
    .pendingStored, 1, 1, 0, 0⟩ := by
    simp only [r, subscribeCmd, hne, Bool.false_eq_true, if_false, hwl, finishSubscribe,
      hnosub, hc]
  have hflow : s.state.subscribers = st.subscribers ++ [⟨wl.id, u, un2⟩] ∧
      mapGet s.state.registrationMessages u = none ∧ s.deletedPromptMsgs = 1 := by
    simp only [s]
    rw [hr]
    simp [startCmd, mapGet_set_self, hwl, hnosub, mapGet_erase_self]
  refine ⟨?_, ?_, ?_, ?_, ?_, hflow.2.1, hflow.2.2⟩
  · rw [hr]
  · rw [hr]
  · rw [hr]
  · rw [hr]
    exact mapGet_set_self _ u _
  · rw [hflow.1, subCount_append, subCount_eq_zero _ _ _ hnosub, subCount_single_self]

/-- Concrete instance of C1: the full gated flow on a fresh state. -/
theorem c1_gated_subscribe_flow_witness :
    let r := subscribeCmd stOne 5 7 "bob" false ["Launch"] 100 .cantInitiate true 55 true
    let s := startCmd r.state 7 "bob" true true true
    r.outcome = .pendingStored ∧
    r.state.subscribers = stOne.subscribers ∧
    r.prompts = 1 ∧
    mapGet r.state.pendingSubscriptions 7 =
      some ⟨String.intercalate " " ["Launch"], 100, 5⟩ ∧
    subCount s.state.subscribers wlLaunch.id 7 = 1 ∧
    mapGet s.state.registrationMessages 7 = none ∧
    s.deletedPromptMsgs = 1 :=
  c1_gated_subscribe_flow stOne 5 7 "bob" "bob" ["Launch"] wlLaunch 100 55 true true
    (by decide) (by decide) (by decide) (by decide) (by decide)

end Elist
